import Mathlib

/-!
Shallow embedding of `pkg/cmd/attestation/verify/policy.go` (package `verify`
of the gh CLI): trust-policy construction (`newPolicy`) and evaluation
(`VerifyCertExtensions`, `VerifyPredicateType`) for software-attestation
verification. Go strings become Lean `String`, Go errors become an inductive
error type whose constructors carry the data the corresponding
`fmt.Errorf`/`errors.New` message names, and fallible functions return
`Except`.
-/

deriving instance DecidableEq for Except

namespace Verify

/-- Go constant `GitHubRunner = "github-hosted"`: the GitHub hosted runner in
the certificate RunnerEnvironment extension. -/
def GitHubRunner : String := "github-hosted"

/-- A character of the class `[a-zA-Z0-9-]` appearing in the Go constant
`hostRegex`. -/
def isHostChar (c : Char) : Bool :=
  c.isAlpha || c.isDigit || c == '-'

/-- After the literal dot of `hostRegex`, the rest must match
`[a-zA-Z0-9-]+.*$`: one class character, then anything non-newline up to the
end of the text (Go `.` does not match a newline and `$` anchors at the end of
the text). -/
def matchHostTail : List Char → Bool
  | [] => false
  | c :: rest => isHostChar c && rest.all (fun d => d != '\n')

/-- Scan past `[a-zA-Z0-9-]*` to the literal dot of `hostRegex`. The class
excludes the dot, so the pattern dot can only match the first non-class
character of the string. -/
def hostMatchAux : List Char → Bool
  | [] => false
  | c :: rest => if c == '.' then matchHostTail rest else isHostChar c && hostMatchAux rest

/-- Decision procedure for Go `regexp.MatchString(hostRegex, s)` with
`hostRegex = ^[a-zA-Z0-9-]+\.[a-zA-Z0-9-]+.*$`: one-or-more class characters,
a dot, one-or-more class characters, then any non-newline characters to the
end. -/
def hostRegexMatch (s : String) : Bool :=
  match s.toList with
  | [] => false
  | c :: rest => isHostChar c && hostMatchAux rest

/-- Case-fold one character the way Go simple folding acts on the ASCII
range: the code point of an upper-case letter A-Z shifted to its lower-case
counterpart, any other code point unchanged. -/
def foldChar (c : Char) : Nat :=
  if 65 ≤ c.toNat ∧ c.toNat ≤ 90 then c.toNat + 32 else c.toNat

/-- Embedding of Go `strings.EqualFold` on the ASCII strings this package
compares: case-insensitive equality via folding both sides characterwise. -/
def EqualFold (s t : String) : Bool :=
  s.data.map foldChar == t.data.map foldChar

/-- Embedding of Go `strings.Index(s, pre) == 0`: the string starts with the
given prefix. -/
def strStartsWith (s pre : String) : Bool :=
  pre.data.isPrefixOf s.data

/-- Go struct `Extensions` (the policy's expected provenance fields; the Go
zero value of each field is the empty string). -/
structure Extensions where
  RunnerEnvironment : String := ""
  SANRegex : String := ""
  SAN : String := ""
  BuildSourceRepoURI : String := ""
  SignerWorkflow : String := ""
  SourceRepositoryOwnerURI : String := ""
  SourceRepositoryURI : String := ""
  deriving DecidableEq

/-- The digested artifact a policy is about; opaque to this core (`policy.go`
only forwards it to the external digest-policy builder). -/
structure DigestedArtifact where
  deriving DecidableEq

/-- Go struct `Policy`. -/
structure Policy where
  Extensions : Extensions := {}
  PredicateType : String := ""
  Artifact : DigestedArtifact := {}
  OIDCIssuer : String := ""
  deriving DecidableEq

/-- The certificate-extension fields of a processing result read by
`verifyCertExtensions` (Go path
`attestation.VerificationResult.Signature.Certificate.Extensions`, flattened). -/
structure CertExtensions where
  SourceRepositoryOwnerURI : String := ""
  SourceRepositoryURI : String := ""
  Issuer : String := ""
  deriving DecidableEq

/-- Go `verification.AttestationProcessingResult`, reduced to the certificate
extensions `policy.go` reads from it. -/
structure AttestationProcessingResult where
  certExtensions : CertExtensions
  deriving DecidableEq

/-- An attestation envelope, reduced to the predicate-type string
`FilterAttestations` reads from it. -/
structure Attestation where
  predicateType : String
  deriving DecidableEq

/-- The errors `policy.go` returns, one constructor per distinct
`fmt.Errorf`/`errors.New` site, carrying the values the Go message
interpolates. -/
inductive VerifyError where
  /-- fmt.Errorf("expected SourceRepositoryOwnerURI to be %s, got %s", ...) -/
  | ownerURIMismatch (expected got : String)
  /-- fmt.Errorf("expected SourceRepositoryURI to be %s, got %s", ...) -/
  | repoURIMismatch (expected got : String)
  /-- fmt.Errorf("expected Issuer to be %s, got %s -- if you have a custom
  OIDC issuer policy for your enterprise, use the --cert-oidc-issuer flag
  with your expected issuer", ...) -/
  | issuerMismatchCustomFlag (expected got : String)
  /-- fmt.Errorf("expected Issuer to be %s, got %s", ...) -/
  | issuerMismatch (expected got : String)
  /-- errors.New("no attestations proccessing results") -/
  | noProcessingResults
  /-- verification.ErrNoAttestationsVerified -/
  | noAttestationsVerified
  /-- errors.New("unknown host") -/
  | unknownHost
  /-- fmt.Errorf("✗ No attestations found with predicate type: %s\n", ...) -/
  | noAttestationsFoundWithPredicateType (predicateType : String)
  deriving DecidableEq

/-- Go struct `Options` (declared outside `policy.go`; its fields and their
types are those `policy.go` and spec §4.1 read: all strings except the
boolean `DenySelfHostedRunner`, zero-valued by default). -/
structure Options where
  SignerRepo : String := ""
  SignerWorkflow : String := ""
  SAN : String := ""
  SANRegex : String := ""
  DenySelfHostedRunner : Bool := false
  Repo : String := ""
  Tenant : String := ""
  Owner : String := ""
  Hostname : String := ""
  OIDCIssuer : String := ""
  deriving DecidableEq

/-- Modelled from the spec: `verification.GitHubTenantOIDCIssuer` (a fixed
format template outside `src/`) instantiated at a tenant — §4.1 step 5, "the
tenant-scoped default issuer from a fixed template". -/
def GitHubTenantOIDCIssuer (tenant : String) : String :=
  "https://token.actions." ++ tenant ++ ".ghe.com"

/-- Go `expandToGitHubURL(tenant, ownerOrRepo)`. -/
def expandToGitHubURL (tenant ownerOrRepo : String) : String :=
  if tenant == "" then "(?i)^https://github.com/" ++ ownerOrRepo ++ "/"
  else "(?i)^https://" ++ tenant ++ ".ghe.com/" ++ ownerOrRepo ++ "/"

/-- Go `validateSignerWorkflow(opts)`. The `regexp.MatchString` error branch
is dropped: `hostRegex` is a constant, valid pattern, so compilation never
fails. -/
def validateSignerWorkflow (opts : Options) : Except VerifyError String :=
  if hostRegexMatch opts.SignerWorkflow then
    Except.ok ("^https://" ++ opts.SignerWorkflow)
  else if opts.Hostname == "" then
    Except.error VerifyError.unknownHost
  else
    Except.ok ("^https://" ++ opts.Hostname ++ "/" ++ opts.SignerWorkflow)

/-- Go `newPolicy(opts, a)`: each Go statement becomes one sequential
binding, so the overwrite of `BuildSourceRepoURI` inside the `Repo` branch is
kept as in the source. -/
def newPolicy (opts : Options) (a : DigestedArtifact) : Except VerifyError Policy := do
  let p : Policy := { Artifact := a }
  let p ←
    if opts.SignerRepo != "" then
      let signedRepoRegex := expandToGitHubURL opts.Tenant opts.SignerRepo
      pure { p with Extensions.SANRegex := signedRepoRegex }
    else if opts.SignerWorkflow != "" then do
      let validatedWorkflowRegex ← validateSignerWorkflow opts
      pure { p with Extensions.SANRegex := validatedWorkflowRegex }
    else
      pure { p with Extensions.SANRegex := opts.SANRegex, Extensions.SAN := opts.SAN }
  let p :=
    if opts.DenySelfHostedRunner then
      { p with Extensions.RunnerEnvironment := GitHubRunner }
    else
      { p with Extensions.RunnerEnvironment := "*" }
  let p :=
    if opts.Repo != "" then
      let q :=
        if opts.Tenant != "" then
          { p with Extensions.BuildSourceRepoURI :=
              "https://" ++ opts.Tenant ++ ".ghe.com/" ++ opts.Repo }
        else p
      { q with Extensions.BuildSourceRepoURI := "https://github.com/" ++ opts.Repo }
    else p
  let p :=
    if opts.Tenant != "" then
      { p with Extensions.SourceRepositoryOwnerURI :=
          "https://" ++ opts.Tenant ++ ".ghe.com/" ++ opts.Owner }
    else
      { p with Extensions.SourceRepositoryOwnerURI := "https://github.com/" ++ opts.Owner }
  let p :=
    if opts.Tenant != "" then
      { p with OIDCIssuer := GitHubTenantOIDCIssuer opts.Tenant }
    else
      { p with OIDCIssuer := opts.OIDCIssuer }
  return p

/-- First block of Go `verifyCertExtensions`: the SourceRepositoryOwnerURI
check. -/
def checkSourceRepositoryOwnerURI (p : Policy) (attestation : AttestationProcessingResult) :
    Except VerifyError Unit :=
  if p.Extensions.SourceRepositoryOwnerURI != "" then
    let sourceRepositoryOwnerURI := attestation.certExtensions.SourceRepositoryOwnerURI
    if !(EqualFold p.Extensions.SourceRepositoryOwnerURI sourceRepositoryOwnerURI) then
      Except.error (VerifyError.ownerURIMismatch p.Extensions.SourceRepositoryOwnerURI
        sourceRepositoryOwnerURI)
    else Except.ok ()
  else Except.ok ()

/-- Second block of Go `verifyCertExtensions`: if repo is set, check the
SourceRepositoryURI field. -/
def checkSourceRepositoryURI (p : Policy) (attestation : AttestationProcessingResult) :
    Except VerifyError Unit :=
  if p.Extensions.SourceRepositoryURI != "" then
    let sourceRepositoryURI := attestation.certExtensions.SourceRepositoryURI
    if !(EqualFold p.Extensions.SourceRepositoryURI sourceRepositoryURI) then
      Except.error (VerifyError.repoURIMismatch p.Extensions.SourceRepositoryURI
        sourceRepositoryURI)
    else Except.ok ()
  else Except.ok ()

/-- Third block of Go `verifyCertExtensions`: the OIDC issuer check.
`strings.Index(certIssuer, p.OIDCIssuer+"/") == 0` becomes `strStartsWith`. -/
def checkIssuer (p : Policy) (attestation : AttestationProcessingResult) :
    Except VerifyError Unit :=
  if p.OIDCIssuer != "" then
    let certIssuer := attestation.certExtensions.Issuer
    if !(EqualFold p.OIDCIssuer certIssuer) then
      if strStartsWith certIssuer (p.OIDCIssuer ++ "/") then
        Except.error (VerifyError.issuerMismatchCustomFlag p.OIDCIssuer certIssuer)
      else
        Except.error (VerifyError.issuerMismatch p.OIDCIssuer certIssuer)
    else Except.ok ()
  else Except.ok ()

/-- Go method `(p *Policy) verifyCertExtensions(attestation)`: the three
checks in source order, stopping at the first error (Go early return). -/
def Policy.verifyCertExtensions (p : Policy) (attestation : AttestationProcessingResult) :
    Except VerifyError Unit := do
  checkSourceRepositoryOwnerURI p attestation
  checkSourceRepositoryURI p attestation
  checkIssuer p attestation

/-- The loop body of Go `VerifyCertExtensions`, threading the
`atLeastOneVerified` flag: stop at the first per-result error, set the flag
after each success, and on loop exit return `nil` when the flag is set and
`verification.ErrNoAttestationsVerified` otherwise. -/
def verifyCertExtensionsLoop (p : Policy) :
    List AttestationProcessingResult → Bool → Except VerifyError Unit
  | [], atLeastOneVerified =>
    if atLeastOneVerified then Except.ok () else Except.error VerifyError.noAttestationsVerified
  | attestation :: rest, _ =>
    match p.verifyCertExtensions attestation with
    | Except.error e => Except.error e
    | Except.ok _ => verifyCertExtensionsLoop p rest true

/-- Go method `(p *Policy) VerifyCertExtensions(results)`. -/
def Policy.VerifyCertExtensions (p : Policy)
    (results : List AttestationProcessingResult) : Except VerifyError Unit :=
  if results.length == 0 then Except.error VerifyError.noProcessingResults
  else verifyCertExtensionsLoop p results false

/-- Modelled from the spec: `verification.FilterAttestations` (package
`verification`, outside `src/`) — §4.4, a pure filter of the attestations by
their declared predicate type, preserving input order. -/
def FilterAttestations (predicateType : String) (a : List Attestation) : List Attestation :=
  a.filter (fun att => att.predicateType == predicateType)

/-- Go method `(p *Policy) VerifyPredicateType(a)`. -/
def Policy.VerifyPredicateType (p : Policy) (a : List Attestation) :
    Except VerifyError (List Attestation) :=
  let filteredAttestations := FilterAttestations p.PredicateType a
  if filteredAttestations.length == 0 then
    Except.error (VerifyError.noAttestationsFoundWithPredicateType p.PredicateType)
  else
    Except.ok filteredAttestations

/-- Specification-side helper: the SAN-resolution step of `newPolicy` in
isolation, as a value of its own. -/
def sanResolution (opts : Options) : Except VerifyError (String × String) :=
  if opts.SignerRepo != "" then Except.ok (expandToGitHubURL opts.Tenant opts.SignerRepo, "")
  else if opts.SignerWorkflow != "" then (validateSignerWorkflow opts).map (fun v => (v, ""))
  else Except.ok (opts.SANRegex, opts.SAN)

/-- Specification-side helper: the error of the first (in input order)
processing result that fails the per-result extension check, if any. -/
def firstFailure (p : Policy) : List AttestationProcessingResult → Option VerifyError
  | [] => none
  | r :: rest =>
    match p.verifyCertExtensions r with
    | Except.error e => some e
    | Except.ok _ => firstFailure p rest

/-- Concrete options for the `BuildSourceRepoURI` overwrite witness: both
`Repo` and `Tenant` are populated. -/
def optsRepoTenant : Options :=
  { SignerRepo := "octo", Repo := "octo/repo", Tenant := "acme", Owner := "octo" }

/-- The policy `newPolicy` builds from `optsRepoTenant`: despite the tenant,
`BuildSourceRepoURI` holds the github.com form. -/
def polRepoTenant : Policy :=
  { Extensions :=
      { RunnerEnvironment := "*"
        SANRegex := "(?i)^https://acme.ghe.com/octo/"
        SAN := ""
        BuildSourceRepoURI := "https://github.com/octo/repo"
        SignerWorkflow := ""
        SourceRepositoryOwnerURI := "https://acme.ghe.com/octo"
        SourceRepositoryURI := "" }
    PredicateType := ""
    Artifact := {}
    OIDCIssuer := "https://token.actions.acme.ghe.com" }

/-- Concrete policy for the issuer-mismatch witness (spec §8 example). -/
def polIssuer : Policy := { OIDCIssuer := "https://issuer.example" }

/-- Concrete processing result for the issuer-mismatch witness: the observed
issuer extends the expected one by a subpath. -/
def aprIssuer : AttestationProcessingResult :=
  ⟨{ Issuer := "https://issuer.example/enterprise-x" }⟩

/-- Concrete options for the runner-environment witness. -/
def optsDeny : Options := { DenySelfHostedRunner := true }

/-- The policy `newPolicy` builds from `optsDeny`. -/
def polDeny : Policy :=
  { Extensions :=
      { RunnerEnvironment := "github-hosted"
        SANRegex := ""
        SAN := ""
        BuildSourceRepoURI := ""
        SignerWorkflow := ""
        SourceRepositoryOwnerURI := "https://github.com/"
        SourceRepositoryURI := "" }
    PredicateType := ""
    Artifact := {}
    OIDCIssuer := "" }

/-- Concrete options for the unconstrained-SourceRepositoryURI witness: a
`Repo` is configured. -/
def optsRepoOnly : Options := { Repo := "octo/repo", Owner := "octo" }

/-- The policy `newPolicy` builds from `optsRepoOnly`. -/
def polRepoOnly : Policy :=
  { Extensions :=
      { RunnerEnvironment := "*"
        SANRegex := ""
        SAN := ""
        BuildSourceRepoURI := "https://github.com/octo/repo"
        SignerWorkflow := ""
        SourceRepositoryOwnerURI := "https://github.com/octo"
        SourceRepositoryURI := "" }
    PredicateType := ""
    Artifact := {}
    OIDCIssuer := "" }

/-- Concrete processing result whose observed `SourceRepositoryURI` names a
repository other than the configured one. -/
def aprOtherRepo : AttestationProcessingResult :=
  ⟨{ SourceRepositoryURI := "https://github.com/evil/other" }⟩

/-- `newPolicy` in closed form: the SAN-resolution step may fail, and every
other field is a function of the options alone. -/
theorem newPolicy_eq (opts : Options) (a : DigestedArtifact) :
    newPolicy opts a =
      (sanResolution opts).map (fun sr =>
        { Artifact := a
          Extensions := {
            SANRegex := sr.1
            SAN := sr.2
            RunnerEnvironment := if opts.DenySelfHostedRunner then GitHubRunner else "*"
            BuildSourceRepoURI :=
              if opts.Repo != "" then "https://github.com/" ++ opts.Repo else ""
            SourceRepositoryOwnerURI :=
              if opts.Tenant != "" then "https://" ++ opts.Tenant ++ ".ghe.com/" ++ opts.Owner
              else "https://github.com/" ++ opts.Owner
            SignerWorkflow := ""
            SourceRepositoryURI := "" }
          PredicateType := ""
          OIDCIssuer :=
            if opts.Tenant != "" then GitHubTenantOIDCIssuer opts.Tenant
            else opts.OIDCIssuer }) := by
  unfold newPolicy sanResolution
  split_ifs <;>
    first
      | rfl
      | (cases h : validateSignerWorkflow opts <;>
          simp [h, Except.map, Bind.bind, Except.bind, pure, Except.pure])

/-- The per-result check passes exactly when each of the three constraints is
either unpopulated or case-insensitively matched. -/
theorem verifyCertExtensions_ok_char (p : Policy) (a : AttestationProcessingResult) :
    p.verifyCertExtensions a = Except.ok () ↔
      ((p.Extensions.SourceRepositoryOwnerURI = "" ∨
          EqualFold p.Extensions.SourceRepositoryOwnerURI
            a.certExtensions.SourceRepositoryOwnerURI = true) ∧
       (p.Extensions.SourceRepositoryURI = "" ∨
          EqualFold p.Extensions.SourceRepositoryURI
            a.certExtensions.SourceRepositoryURI = true) ∧
       (p.OIDCIssuer = "" ∨ EqualFold p.OIDCIssuer a.certExtensions.Issuer = true)) := by
  unfold Policy.verifyCertExtensions checkSourceRepositoryOwnerURI
    checkSourceRepositoryURI checkIssuer
  cases h1 : EqualFold p.Extensions.SourceRepositoryOwnerURI
      a.certExtensions.SourceRepositoryOwnerURI <;>
    cases h2 : EqualFold p.Extensions.SourceRepositoryURI
        a.certExtensions.SourceRepositoryURI <;>
      cases h3 : EqualFold p.OIDCIssuer a.certExtensions.Issuer <;>
        cases h4 : strStartsWith a.certExtensions.Issuer (p.OIDCIssuer ++ "/") <;>
          split_ifs <;> simp_all [Bind.bind, Except.bind]

/-- The per-result check never produces the list-level fallback error. -/
theorem verifyCertExtensions_error_ne_fallback (p : Policy)
    (x : AttestationProcessingResult) :
    p.verifyCertExtensions x ≠ Except.error VerifyError.noAttestationsVerified := by
  unfold Policy.verifyCertExtensions checkSourceRepositoryOwnerURI
    checkSourceRepositoryURI checkIssuer
  cases h1 : EqualFold p.Extensions.SourceRepositoryOwnerURI
      x.certExtensions.SourceRepositoryOwnerURI <;>
    cases h2 : EqualFold p.Extensions.SourceRepositoryURI
        x.certExtensions.SourceRepositoryURI <;>
      cases h3 : EqualFold p.OIDCIssuer x.certExtensions.Issuer <;>
        cases h4 : strStartsWith x.certExtensions.Issuer (p.OIDCIssuer ++ "/") <;>
          split_ifs <;> simp_all [Bind.bind, Except.bind]

/-- With the flag already set, the loop returns the first failure's error, or
ok when none fails. -/
theorem verifyCertExtensionsLoop_true_eq (p : Policy)
    (l : List AttestationProcessingResult) :
    verifyCertExtensionsLoop p l true =
      match firstFailure p l with
      | some e => Except.error e
      | none => Except.ok () := by
  induction l with
  | nil => rfl
  | cons r rest ih =>
    cases h : p.verifyCertExtensions r with
    | error e => simp [verifyCertExtensionsLoop, firstFailure, h]
    | ok u => cases u; simp [verifyCertExtensionsLoop, firstFailure, h, ih]

/-- No result fails exactly when each result passes the per-result check. -/
theorem firstFailure_eq_none_iff (p : Policy) (l : List AttestationProcessingResult) :
    firstFailure p l = none ↔ ∀ x ∈ l, p.verifyCertExtensions x = Except.ok () := by
  induction l with
  | nil => simp [firstFailure]
  | cons r rest ih =>
    cases h : p.verifyCertExtensions r with
    | error e => simp [firstFailure, h]
    | ok u => cases u; simp [firstFailure, h, ih]

/-- A first failure is the error of some member of the list. -/
theorem firstFailure_some_mem (p : Policy) (l : List AttestationProcessingResult)
    (e : VerifyError) (h : firstFailure p l = some e) :
    ∃ x ∈ l, p.verifyCertExtensions x = Except.error e := by
  induction l with
  | nil => simp [firstFailure] at h
  | cons r rest ih =>
    cases hr : p.verifyCertExtensions r with
    | error e2 =>
      simp [firstFailure, hr] at h
      exact ⟨r, List.mem_cons_self r rest, by rw [hr, h]⟩
    | ok u =>
      cases u
      simp only [firstFailure, hr] at h
      obtain ⟨x, hx, hxe⟩ := ih h
      exact ⟨x, List.mem_cons_of_mem r hx, hxe⟩

/-- `expandToGitHubURL` in closed form over a propositional tenant test. -/
theorem expandToGitHubURL_eq (tenant ownerOrRepo : String) :
    expandToGitHubURL tenant ownerOrRepo =
      if tenant = "" then "(?i)^https://github.com/" ++ ownerOrRepo ++ "/"
      else "(?i)^https://" ++ tenant ++ ".ghe.com/" ++ ownerOrRepo ++ "/" := by
  unfold expandToGitHubURL
  split_ifs <;> simp_all

/-- C1: for every policy and processing result, the per-result extension
check passes a populated constraint (SourceRepositoryOwnerURI,
SourceRepositoryURI, or OIDCIssuer) exactly when the expected value
case-insensitively equals the observed certificate-extension value, and an
empty expected value constrains nothing. -/
theorem verifyCertExtensions_populated_constraints_iff (p : Policy)
    (a : AttestationProcessingResult) :
    p.verifyCertExtensions a = Except.ok () ↔
      ((p.Extensions.SourceRepositoryOwnerURI = "" ∨
          EqualFold p.Extensions.SourceRepositoryOwnerURI
            a.certExtensions.SourceRepositoryOwnerURI = true) ∧
       (p.Extensions.SourceRepositoryURI = "" ∨
          EqualFold p.Extensions.SourceRepositoryURI
            a.certExtensions.SourceRepositoryURI = true) ∧
       (p.OIDCIssuer = "" ∨ EqualFold p.OIDCIssuer a.certExtensions.Issuer = true)) :=
  verifyCertExtensions_ok_char p a

/-- C2: on every non-empty list of processing results, `VerifyCertExtensions`
returns ok exactly when every result passes the per-result check, and
otherwise returns the error of the first (in input order) failing result. -/
theorem VerifyCertExtensions_returns_first_failure (p : Policy)
    (r : AttestationProcessingResult) (rest : List AttestationProcessingResult) :
    (p.VerifyCertExtensions (r :: rest) = Except.ok () ↔
      ∀ x ∈ r :: rest, p.verifyCertExtensions x = Except.ok ()) ∧
    p.VerifyCertExtensions (r :: rest) =
      (match firstFailure p (r :: rest) with
       | some e => Except.error e
       | none => Except.ok ()) := by
  have hloop : p.VerifyCertExtensions (r :: rest) =
      verifyCertExtensionsLoop p (r :: rest) true := rfl
  rw [hloop, verifyCertExtensionsLoop_true_eq]
  refine ⟨?_, rfl⟩
  rw [← firstFailure_eq_none_iff p (r :: rest)]
  cases hf : firstFailure p (r :: rest) <;> simp [hf]

/-- C3: `VerifyCertExtensions` on an empty list returns the dedicated
empty-input error, and on no input does it return the
no-attestations-verified fallback. -/
theorem VerifyCertExtensions_empty_error_and_no_fallback (p : Policy)
    (results : List AttestationProcessingResult) :
    p.VerifyCertExtensions [] = Except.error VerifyError.noProcessingResults ∧
    p.VerifyCertExtensions results ≠ Except.error VerifyError.noAttestationsVerified := by
  refine ⟨rfl, ?_⟩
  cases results with
  | nil => simp [Policy.VerifyCertExtensions]
  | cons r rest =>
    have hloop : p.VerifyCertExtensions (r :: rest) =
        verifyCertExtensionsLoop p (r :: rest) true := rfl
    rw [hloop, verifyCertExtensionsLoop_true_eq]
    cases hf : firstFailure p (r :: rest) with
    | none => simp
    | some e =>
      obtain ⟨x, _, hxe⟩ := firstFailure_some_mem p (r :: rest) e hf
      intro h
      simp only [Except.error.injEq] at h
      exact verifyCertExtensions_error_ne_fallback p x (h ▸ hxe)

/-- C4: policy construction resolves the SAN mode by strict priority: a
non-empty SignerRepo yields the derived repo regex (tenant-aware) with SAN
left empty; else a non-empty SignerWorkflow takes its regex from workflow
validation (propagating its error) with SAN left empty; else the
caller-supplied SAN and SANRegex pass through verbatim. -/
theorem newPolicy_SAN_resolution_priority (opts : Options) (a : DigestedArtifact) :
    (opts.SignerRepo ≠ "" →
      ∃ p, newPolicy opts a = Except.ok p ∧
        p.Extensions.SANRegex =
          (if opts.Tenant = "" then "(?i)^https://github.com/" ++ opts.SignerRepo ++ "/"
           else "(?i)^https://" ++ opts.Tenant ++ ".ghe.com/" ++ opts.SignerRepo ++ "/") ∧
        p.Extensions.SAN = "") ∧
    (opts.SignerRepo = "" → opts.SignerWorkflow ≠ "" →
      (∀ p, newPolicy opts a = Except.ok p →
        validateSignerWorkflow opts = Except.ok p.Extensions.SANRegex ∧
        p.Extensions.SAN = "") ∧
      (∀ e, validateSignerWorkflow opts = Except.error e →
        newPolicy opts a = Except.error e)) ∧
    (opts.SignerRepo = "" → opts.SignerWorkflow = "" →
      ∃ p, newPolicy opts a = Except.ok p ∧
        p.Extensions.SANRegex = opts.SANRegex ∧ p.Extensions.SAN = opts.SAN) := by
  refine ⟨?_, ?_, ?_⟩
  · intro h
    rw [newPolicy_eq]
    have hs : sanResolution opts =
        Except.ok (expandToGitHubURL opts.Tenant opts.SignerRepo, "") := by
      simp [sanResolution, bne_iff_ne, h]
    rw [hs]
    refine ⟨_, rfl, ?_, rfl⟩
    exact expandToGitHubURL_eq opts.Tenant opts.SignerRepo
  · intro h h2
    have hs : sanResolution opts = (validateSignerWorkflow opts).map (fun v => (v, "")) := by
      simp [sanResolution, h, h2, bne_iff_ne]
    constructor
    · intro p hp
      rw [newPolicy_eq, hs] at hp
      cases hv : validateSignerWorkflow opts with
      | error e => rw [hv] at hp; exact absurd hp (by simp [Except.map])
      | ok v =>
        rw [hv] at hp
        simp only [Except.map, Except.ok.injEq] at hp
        subst hp
        exact ⟨rfl, rfl⟩
    · intro e he
      rw [newPolicy_eq, hs, he]
      rfl
  · intro h h2
    rw [newPolicy_eq]
    have hs : sanResolution opts = Except.ok (opts.SANRegex, opts.SAN) := by
      simp [sanResolution, h, h2]
    rw [hs]
    exact ⟨_, rfl, rfl, rfl⟩

/-- C5: whenever Repo is non-empty, the built policy's BuildSourceRepoURI is
the github.com form, whether or not a tenant is configured: the tenant-scoped
assignment is unconditionally overwritten. -/
theorem newPolicy_BuildSourceRepoURI_tenant_overwritten (opts : Options)
    (a : DigestedArtifact) (p : Policy)
    (hp : newPolicy opts a = Except.ok p) (hr : opts.Repo ≠ "") :
    p.Extensions.BuildSourceRepoURI = "https://github.com/" ++ opts.Repo := by
  rw [newPolicy_eq] at hp
  cases hs : sanResolution opts with
  | error e => rw [hs] at hp; simp [Except.map] at hp
  | ok v =>
    rw [hs] at hp
    simp only [Except.map, Except.ok.injEq] at hp
    subst hp
    simp [bne_iff_ne, hr]

/-- C5 witness: with Repo and Tenant both populated, the built policy's
BuildSourceRepoURI is the github.com form. -/
theorem newPolicy_BuildSourceRepoURI_tenant_overwritten_witness :
    newPolicy optsRepoTenant {} = Except.ok polRepoTenant ∧
    optsRepoTenant.Repo ≠ "" ∧
    polRepoTenant.Extensions.BuildSourceRepoURI = "https://github.com/octo/repo" :=
  ⟨by decide, by decide,
    newPolicy_BuildSourceRepoURI_tenant_overwritten optsRepoTenant {} polRepoTenant
      (by decide) (by decide)⟩

/-- C6: when OIDCIssuer is populated and the observed issuer differs
case-insensitively, the issuer check fails with the custom-issuer remediation
error exactly when the observed issuer starts with the expected issuer
followed by a slash, and with the generic mismatch error otherwise; the
per-result check then fails as a whole. -/
theorem checkIssuer_mismatch_error_selection (p : Policy)
    (a : AttestationProcessingResult)
    (h1 : p.OIDCIssuer ≠ "")
    (h2 : EqualFold p.OIDCIssuer a.certExtensions.Issuer = false) :
    checkIssuer p a =
      (if strStartsWith a.certExtensions.Issuer (p.OIDCIssuer ++ "/") then
        Except.error (VerifyError.issuerMismatchCustomFlag p.OIDCIssuer
          a.certExtensions.Issuer)
      else
        Except.error (VerifyError.issuerMismatch p.OIDCIssuer a.certExtensions.Issuer)) ∧
    p.verifyCertExtensions a ≠ Except.ok () := by
  constructor
  · unfold checkIssuer
    simp [bne_iff_ne, h1, h2]
  · intro hok
    rw [verifyCertExtensions_ok_char] at hok
    simp [h1, h2] at hok

/-- C6 witness: for expected issuer https://issuer.example and observed
https://issuer.example/enterprise-x, the check fails with the remediation
error, not the generic one. -/
theorem checkIssuer_mismatch_error_selection_witness :
    polIssuer.OIDCIssuer ≠ "" ∧
    EqualFold polIssuer.OIDCIssuer aprIssuer.certExtensions.Issuer = false ∧
    checkIssuer polIssuer aprIssuer =
      Except.error (VerifyError.issuerMismatchCustomFlag "https://issuer.example"
        "https://issuer.example/enterprise-x") ∧
    polIssuer.verifyCertExtensions aprIssuer ≠ Except.ok () := by
  have h := checkIssuer_mismatch_error_selection polIssuer aprIssuer (by decide) (by decide)
  refine ⟨by decide, by decide, ?_, h.2⟩
  rw [h.1]
  decide

/-- C7: a signer workflow matching the host-shaped prefix pattern yields the
anchored URL of the value itself, ignoring the hostname option; otherwise a
non-empty hostname is prepended, and an empty hostname is an unknown-host
error. -/
theorem validateSignerWorkflow_host_resolution (opts : Options) :
    (hostRegexMatch opts.SignerWorkflow = true →
      validateSignerWorkflow opts = Except.ok ("^https://" ++ opts.SignerWorkflow)) ∧
    (hostRegexMatch opts.SignerWorkflow = false → opts.Hostname ≠ "" →
      validateSignerWorkflow opts =
        Except.ok ("^https://" ++ opts.Hostname ++ "/" ++ opts.SignerWorkflow)) ∧
    (hostRegexMatch opts.SignerWorkflow = false → opts.Hostname = "" →
      validateSignerWorkflow opts = Except.error VerifyError.unknownHost) := by
  unfold validateSignerWorkflow
  refine ⟨fun h => by simp [h], fun h h2 => by simp [h, h2, beq_iff_eq],
    fun h h2 => by simp [h, h2]⟩

/-- C8: every policy built by `newPolicy` has RunnerEnvironment
"github-hosted" when DenySelfHostedRunner is set and the wildcard otherwise;
it is never the empty string. -/
theorem newPolicy_RunnerEnvironment_never_empty (opts : Options)
    (a : DigestedArtifact) (p : Policy)
    (hp : newPolicy opts a = Except.ok p) :
    p.Extensions.RunnerEnvironment =
      (if opts.DenySelfHostedRunner then "github-hosted" else "*") ∧
    p.Extensions.RunnerEnvironment ≠ "" := by
  rw [newPolicy_eq] at hp
  cases hs : sanResolution opts with
  | error e => rw [hs] at hp; simp [Except.map] at hp
  | ok v =>
    rw [hs] at hp
    simp only [Except.map, Except.ok.injEq] at hp
    subst hp
    constructor
    · simp [GitHubRunner]
    · split_ifs <;> simp [GitHubRunner]

/-- C8 witness: with DenySelfHostedRunner set, the built policy's runner
environment is the GitHub-hosted marker, which is non-empty. -/
theorem newPolicy_RunnerEnvironment_never_empty_witness :
    newPolicy optsDeny {} = Except.ok polDeny ∧
    polDeny.Extensions.RunnerEnvironment =
      (if optsDeny.DenySelfHostedRunner then "github-hosted" else "*") ∧
    polDeny.Extensions.RunnerEnvironment ≠ "" := by
  have h := newPolicy_RunnerEnvironment_never_empty optsDeny {} polDeny (by decide)
  exact ⟨by decide, h.1, h.2⟩

/-- C9: `VerifyPredicateType` returns the error naming the policy's predicate
type exactly when filtering by that predicate type yields an empty subset;
otherwise it returns the filtered subset. -/
theorem VerifyPredicateType_error_iff_no_match (p : Policy) (a : List Attestation) :
    (p.VerifyPredicateType a =
        Except.error (VerifyError.noAttestationsFoundWithPredicateType p.PredicateType) ↔
      FilterAttestations p.PredicateType a = []) ∧
    (FilterAttestations p.PredicateType a ≠ [] →
      p.VerifyPredicateType a = Except.ok (FilterAttestations p.PredicateType a)) := by
  unfold Policy.VerifyPredicateType
  cases hf : FilterAttestations p.PredicateType a <;> simp [hf]

/-- C10: `newPolicy` never populates Extensions.SourceRepositoryURI, so the
evaluator's SourceRepositoryURI check is vacuous on every built policy, and
the per-result check never reads BuildSourceRepoURI: a configured Repo is not
enforced during extension verification. -/
theorem newPolicy_never_constrains_SourceRepositoryURI (opts : Options)
    (a : DigestedArtifact) (p : Policy)
    (hp : newPolicy opts a = Except.ok p) :
    p.Extensions.SourceRepositoryURI = "" ∧
    (∀ r, checkSourceRepositoryURI p r = Except.ok ()) ∧
    (∀ (q : Policy) (s : String) (r : AttestationProcessingResult),
      Policy.verifyCertExtensions { q with Extensions.BuildSourceRepoURI := s } r =
        q.verifyCertExtensions r) := by
  rw [newPolicy_eq] at hp
  cases hs : sanResolution opts with
  | error e => rw [hs] at hp; simp [Except.map] at hp
  | ok v =>
    rw [hs] at hp
    simp only [Except.map, Except.ok.injEq] at hp
    subst hp
    refine ⟨rfl, fun r => by simp [checkSourceRepositoryURI], fun q s r => rfl⟩

/-- C10 witness: with a configured Repo, the built policy leaves
SourceRepositoryURI empty and its check passes a result naming a different
repository. -/
theorem newPolicy_never_constrains_SourceRepositoryURI_witness :
    newPolicy optsRepoOnly {} = Except.ok polRepoOnly ∧
    polRepoOnly.Extensions.SourceRepositoryURI = "" ∧
    checkSourceRepositoryURI polRepoOnly aprOtherRepo = Except.ok () := by
  have h := newPolicy_never_constrains_SourceRepositoryURI optsRepoOnly {} polRepoOnly
    (by decide)
  exact ⟨by decide, h.1, h.2.1 aprOtherRepo⟩

end Verify
